import Mathlib

/-!
Verification of the structural-inference core of the presentation pipeline:
`TextSplitter` (presentation_design/extraction/text_splitter.py) and
`ContentAnalyzer` (presentation_design/extraction/content_analyzer.py).

The Python code is embedded shallowly: strings are Lean `String`s, the regular
expressions used by the code (`^\s*(\d+)[.):]\s+`, `^\s*[•\-\*–—]\s+`, their
`(.+)`-extraction variants and the MULTILINE `finditer` scans) are implemented
as explicit character-list matchers with Python's greedy-plus-backtracking
semantics, and the `while` loops become fuel-indexed recursions (the fuel is
always sufficient because every iteration consumes at least one line/char).
-/

/-- Python `\s` / `str.strip()` whitespace: space, tab, newline, CR, VT, FF
(the ASCII whitespace Python recognises; the texts this pipeline handles use
only space, tab and newline). -/
def pyIsSpace (c : Char) : Bool :=
  c = ' ' || c = '\t' || c = '\n' || c = '\r' || c = '\x0b' || c = '\x0c'

/-- Python `\d` for the ASCII digits appearing in list markers. -/
def isAsciiDigit (c : Char) : Bool :=
  '0' ≤ c && c ≤ '9'

/-- Cyrillic block U+0400–U+04FF; with ASCII this covers the alphabets the
application processes (see the Latin+Cyrillic classes in content_analyzer.py). -/
def isCyrillic (c : Char) : Bool :=
  0x400 ≤ c.toNat && c.toNat ≤ 0x4FF

/-- Python `\w` (word character) restricted to the ASCII+Cyrillic repertoire:
letters, digits, underscore. -/
def pyIsWordChar (c : Char) : Bool :=
  ('a' ≤ c && c ≤ 'z') || ('A' ≤ c && c ≤ 'Z') || isAsciiDigit c || c = '_' || isCyrillic c

/-- Python `str.isupper()` on a single character, for Latin and Cyrillic:
A–Z, А–Я, Ё. -/
def pyIsUpperChar (c : Char) : Bool :=
  ('A' ≤ c && c ≤ 'Z') || ('А' ≤ c && c ≤ 'Я') || c = 'Ё'

/-- A cased character (has upper/lower variants), Latin + Cyrillic. -/
def pyIsCasedChar (c : Char) : Bool :=
  ('a' ≤ c && c ≤ 'z') || ('A' ≤ c && c ≤ 'Z') || isCyrillic c

/-- Python `str.strip()` on a character list: drop whitespace at both ends. -/
def pyStripChars (cs : List Char) : List Char :=
  ((cs.dropWhile pyIsSpace).reverse.dropWhile pyIsSpace).reverse

/-- Python `str.strip()`. -/
def pyStrip (s : String) : String :=
  String.mk (pyStripChars s.data)

/-- Helper for Python `str.split()`: accumulate the current word (reversed)
while scanning; whitespace ends a word, empty pieces are dropped. -/
def splitWsAux : List Char → List Char → List (List Char)
  | [], acc => if acc.isEmpty then [] else [acc.reverse]
  | c :: rest, acc =>
    if pyIsSpace c then
      if acc.isEmpty then splitWsAux rest []
      else acc.reverse :: splitWsAux rest []
    else splitWsAux rest (c :: acc)

/-- Python `str.split()` with no separator: split on whitespace runs,
dropping empty pieces. -/
def pySplitWs (s : String) : List String :=
  (splitWsAux s.data []).map String.mk

/-- Python `str.endswith(c)` for a one-character suffix. -/
def pyEndsWith (s : String) (c : Char) : Bool :=
  match s.data.getLast? with
  | none => false
  | some d => d = c

/-- Python `str.isupper()`: at least one cased character and no cased
character is lowercase. -/
def pyIsUpper (s : String) : Bool :=
  s.data.any pyIsCasedChar && s.data.all (fun c => !pyIsCasedChar c || pyIsUpperChar c)

/-- Python `text.split('\n')` on a character list: the pieces between
newline characters (always at least one piece, possibly empty). -/
def splitLinesChar : List Char → List (List Char)
  | [] => [[]]
  | c :: rest =>
    if c = '\n' then [] :: splitLinesChar rest
    else
      match splitLinesChar rest with
      | [] => [[c]]
      | l :: ls => (c :: l) :: ls

/-- The line preprocessing of `TextSplitter.split_slide_text`:
`[line.strip() for line in text.split('\n') if line.strip()]`. -/
def pyLines (text : String) : List String :=
  ((splitLinesChar text.data).map (fun l => String.mk (pyStripChars l))).filter
    (fun l => l ≠ "")

/-- The bullet glyph class `[•\-\*–—]` of the Python regexes. -/
def isBulletChar (c : Char) : Bool :=
  c = '•' || c = '-' || c = '*' || c = '–' || c = '—'

/-- Matcher for the regex tail `\s+(.+)` (as in `^\s*\d+[.):]\s+(.+)`),
with Python's greedy/backtracking semantics: `\s+` first takes as many
whitespace characters as possible, then gives characters back one at a time
until `(.+)` (one or more non-newline characters, greedy) can match.
Returns the text captured by `(.+)` together with the characters remaining
after the whole match. -/
def wsContent : List Char → Option (List Char × List Char)
  | [] => none
  | c :: rest =>
    if pyIsSpace c then
      match wsContent rest with
      | some r => some r
      | none =>
        match rest with
        | [] => none
        | d :: _ =>
          if d = '\n' then none
          else some (rest.takeWhile (fun x => x ≠ '\n'), rest.dropWhile (fun x => x ≠ '\n'))
    else none

/-- `re.match(r'^\s*(\d+)[.):]\s+(.+)', ...)` at the head of a character
list; returns the `(.+)` capture and the remainder after the match. -/
def matchNumberedAt (l : List Char) : Option (List Char × List Char) :=
  let afterWs := l.dropWhile pyIsSpace
  match afterWs.takeWhile isAsciiDigit, afterWs.dropWhile isAsciiDigit with
  | [], _ => none
  | _ :: _, p :: rest =>
    if p = '.' || p = ')' || p = ':' then wsContent rest else none
  | _ :: _, [] => none

/-- `re.match(r'^\s*[•\-\*–—]\s+(.+)', ...)` at the head of a character
list; returns the `(.+)` capture and the remainder after the match. -/
def matchBulletAt (l : List Char) : Option (List Char × List Char) :=
  match l.dropWhile pyIsSpace with
  | [] => none
  | b :: rest => if isBulletChar b then wsContent rest else none

/-- `re.match(r'^\s*(\d+)[.):]\s+', line)` as a Boolean test (no content
group: the pattern only demands one whitespace character after the marker). -/
def numberedItemTest (l : List Char) : Bool :=
  let afterWs := l.dropWhile pyIsSpace
  match afterWs.takeWhile isAsciiDigit, afterWs.dropWhile isAsciiDigit with
  | _ :: _, p :: c :: _ => (p = '.' || p = ')' || p = ':') && pyIsSpace c
  | _, _ => false

/-- `re.match(r'^\s*[•\-\*–—]\s+', line)` as a Boolean test. -/
def bulletItemTest (l : List Char) : Bool :=
  match l.dropWhile pyIsSpace with
  | b :: c :: _ => isBulletChar b && pyIsSpace c
  | _ => false

/-- Structure analysis result of `ContentAnalyzer.analyze_text_structure`
(the `original_text` key is absent from the dictionary returned on
empty/whitespace-only input, hence the `Option`). -/
structure TextAnalysis where
  content_type : String
  items : List String
  has_emphasis : Bool
  is_title_case : Bool
  original_text : Option String := none
  deriving Repr, DecidableEq

/-- A text component as produced by `TextSplitter` / refined by
`ContentAnalyzer`. The Python code uses dictionaries whose optional keys
(`content_type`, `is_list`, `items`, `make_bold`, `text_analysis`) are only
present on some components; absent keys are the defaults below. -/
structure Component where
  role : String
  content : String
  line_index : Nat := 0
  content_type : Option String := none
  is_list : Bool := false
  items : List String := []
  make_bold : Bool := false
  text_analysis : Option TextAnalysis := none
  deriving Repr, DecidableEq

namespace TextSplitter

/-- `TextSplitter._count_words`: `len(text.strip().split())`. -/
def _count_words (text : String) : Nat :=
  (pySplitWs (pyStrip text)).length

/-- `TextSplitter._is_list_item`: numbered (`1.` `2)` `3:`) or bulleted
(`•`, `-`, `*`, `–`, `—`) marker followed by whitespace. -/
def _is_list_item (line : String) : Bool :=
  numberedItemTest line.data || bulletItemTest line.data

/-- `TextSplitter._is_heading`. The float test `capitalized / len(words)
>= 0.7` is expressed exactly as `7 * len(words) <= 10 * capitalized`
(the two sides agree for every word count a line can have). -/
def _is_heading (line : String) : Bool :=
  if line.length > 80 then false
  else if pyIsUpper line && line.length > 3 then true
  else if pyEndsWith line ':' then true
  else
    let words := pySplitWs line
    let capitalized := words.countP (fun w =>
      match w.data with
      | [] => false
      | c :: _ => pyIsUpperChar c)
    decide (0 < words.length) && decide (7 * words.length ≤ 10 * capitalized) &&
      decide (line.length < 60)

/-- `TextSplitter._extract_list`. Returns `none` for Python's `(None, 0)`;
the out-of-range access `lines[start_idx]` cannot happen at any call site
(the caller keeps `start_idx < len(lines)`), and is mapped to `none`. -/
def _extract_list (lines : List String) (start_idx : Nat) :
    Option (Component × Nat) :=
  match lines.get? start_idx with
  | none => none
  | some first_line =>
    if !_is_list_item first_line then none
    else
      let list_type := if numberedItemTest first_line.data then "numbered_list"
        else "bullet_list"
      let run := (lines.drop start_idx).takeWhile _is_list_item
      let items := run.filterMap (fun line =>
        if list_type = "numbered_list" then
          (matchNumberedAt line.data).map (fun r => String.mk r.1)
        else
          (matchBulletAt line.data).map (fun r => String.mk r.1))
      let content :=
        if list_type = "numbered_list" then
          String.intercalate "\n" (items.enum.map (fun p => toString (p.1 + 1) ++ ". " ++ p.2))
        else
          String.intercalate "\n" (items.map (fun item => "• " ++ item))
      some ({ role := "BODY", content := content, content_type := some list_type,
              is_list := true, items := items, line_index := start_idx }, run.length)

/-- Collection condition of the colon-heading branch of
`_format_text_with_lists`: non-empty, not another heading, not a list item. -/
def afterColonCond (l : String) : Bool :=
  l ≠ "" && !pyEndsWith l ':' && !_is_list_item l

/-- Stop condition of the paragraph-collection loop of
`_format_text_with_lists`. -/
def paragraphCond (l : String) : Bool :=
  !(pyEndsWith l ':' || _is_heading l || _is_list_item l)

/-- The `while i < len(lines)` loop of `TextSplitter._format_text_with_lists`,
fuel-indexed. Every iteration advances `i` by at least one, so fuel
`lines.length` makes the recursion equal to the Python loop. -/
def _format_go (lines : List String) : Nat → Nat → List Component
  | 0, _ => []
  | fuel + 1, i =>
    match lines.get? i with
    | none => []
    | some line =>
      if pyEndsWith line ':' then
        let heading : Component :=
          { role := "HEADING", content := line, line_index := i, make_bold := true }
        let list_items := (lines.drop (i + 1)).takeWhile afterColonCond
        if list_items.isEmpty then
          heading :: _format_go lines fuel (i + 1 + list_items.length)
        else
          heading ::
            { role := "BODY",
              content := String.intercalate "\n" (list_items.map (fun item => "• " ++ item)),
              content_type := some "bullet_list", is_list := true, items := list_items,
              line_index := i + 1 } ::
            _format_go lines fuel (i + 1 + list_items.length)
      else
        match _extract_list lines i with
        | some (comp, consumed) => comp :: _format_go lines fuel (i + consumed)
        | none =>
          if _is_heading line then
            { role := "HEADING", content := line, line_index := i } ::
              _format_go lines fuel (i + 1)
          else
            let para := line :: (lines.drop (i + 1)).takeWhile paragraphCond
            { role := "BODY", content := String.intercalate "\n" para, line_index := i } ::
              _format_go lines fuel (i + para.length)

/-- `TextSplitter._format_text_with_lists`. -/
def _format_text_with_lists (lines : List String) : List Component :=
  _format_go lines lines.length 0

/-- Body of `TextSplitter.split_slide_text` after the line preprocessing
(`lines` is already stripped and non-empty filtered). -/
def splitCore : List String → Nat → List Component
  | [], _ => []
  | first_line :: restLines, slide_index =>
    let word_count := _count_words first_line
    if word_count ≤ 6 then
      let title : Component := { role := "TITLE", content := first_line, line_index := 0 }
      match restLines with
      | [] => [title]
      | second :: rest2 =>
        if slide_index = 0 && second.length < 150 && _count_words second ≤ 6 then
          title :: { role := "SUBTITLE", content := second, line_index := 1 } ::
            _format_text_with_lists rest2
        else
          title :: _format_text_with_lists restLines
    else
      _format_text_with_lists (first_line :: restLines)

/-- `TextSplitter.split_slide_text`. -/
def split_slide_text (text : String) (slide_index : Nat) : List Component :=
  if pyStrip text = "" then []
  else splitCore (pyLines text) slide_index

end TextSplitter

namespace ContentAnalyzer

/-- One step of `re.finditer` with a MULTILINE line-anchored pattern: scan
the character list position by position; at each line start (beginning of
input or just after a `'\n'`) try the matcher, and on a hit emit the capture
and resume after the matched span (the span ends before a newline or at the
end of input, so the position after it is never a line start). Fuel-indexed;
fuel = input length is enough since every step consumes at least one
character. -/
def finditGo (matcher : List Char → Option (List Char × List Char)) :
    Nat → List Char → Bool → List (List Char)
  | 0, _, _ => []
  | _ + 1, [], _ => []
  | fuel + 1, c :: rest, atLineStart =>
    if atLineStart then
      match matcher (c :: rest) with
      | some (g, rest') => g :: finditGo matcher fuel rest' false
      | none => finditGo matcher fuel rest (c = '\n')
    else finditGo matcher fuel rest (c = '\n')

/-- `NUMBERED_LIST_PATTERN.finditer(text)`: the `(.+)` captures of
`^\s*(\d+)[.):]\s+(.+)` (MULTILINE) over the whole text. -/
def numberedFinditer (text : String) : List String :=
  (finditGo matchNumberedAt text.data.length text.data true).map String.mk

/-- `BULLET_PATTERN.finditer(text)`: the `(.+)` captures of
`^\s*[•\-\*–—]\s+(.+)` (MULTILINE) over the whole text. -/
def bulletFinditer (text : String) : List String :=
  (finditGo matchBulletAt text.data.length text.data true).map String.mk

/-- A character admitted by `ALL_CAPS_PATTERN = ^[A-ZА-ЯЁ\s\d\W]+$`:
Latin/Cyrillic uppercase, whitespace, digit, or any non-word character. -/
def allCapsClassChar (c : Char) : Bool :=
  ('A' ≤ c && c ≤ 'Z') || ('А' ≤ c && c ≤ 'Я') || c = 'Ё' || pyIsSpace c ||
    isAsciiDigit c || !pyIsWordChar c

/-- `bool(ALL_CAPS_PATTERN.match(text.strip()))`: the stripped text is
non-empty and every character is in the class (the pattern is anchored on
both sides and the stripped text has no trailing newline). -/
def hasEmphasisOf (text : String) : Bool :=
  pyStrip text ≠ "" && (pyStrip text).data.all allCapsClassChar

/-- `ContentAnalyzer._is_title_case`. The float test `capitalized /
len(words) >= 0.5` is expressed exactly as `len(words) <= 2 * capitalized`. -/
def _is_title_case (text : String) : Bool :=
  let words := pySplitWs text
  if words.isEmpty then false
  else
    let capitalized := words.countP (fun w =>
      match w.data with
      | [] => false
      | c :: _ => pyIsUpperChar c)
    decide (words.length ≤ 2 * capitalized)

/-- `ContentAnalyzer.analyze_text_structure`. -/
def analyze_text_structure (text : String) : TextAnalysis :=
  if pyStrip text = "" then
    { content_type := "plain", items := [], has_emphasis := false, is_title_case := false }
  else
    let numbered_matches := numberedFinditer text
    let bullet_matches := bulletFinditer text
    let ct_items : String × List String :=
      if 2 ≤ numbered_matches.length then
        ("numbered_list", numbered_matches.map pyStrip)
      else if 2 ≤ bullet_matches.length then
        ("bullet_list", bullet_matches.map pyStrip)
      else
        ("plain", ((splitLinesChar text.data).map (fun l => String.mk (pyStripChars l))).filter
          (fun l => l ≠ ""))
    { content_type := ct_items.1, items := ct_items.2,
      has_emphasis := hasEmphasisOf text, is_title_case := _is_title_case text,
      original_text := some text }

/-- `ContentAnalyzer._refine_role`. The Python rule ladder returns at the
first matching rule; nested `if position_index == k: if cond: return r`
blocks fall through when `cond` fails, which the flattened conjunctions
reproduce. -/
def _refine_role (element : Component) (text_analysis : TextAnalysis)
    (position_index : Nat) (total_elements : Nat) : String :=
  let current_role := element.role
  let content := pyStrip element.content
  if current_role = "TITLE" || current_role = "SUBTITLE" then
    if text_analysis.content_type = "numbered_list" ||
        text_analysis.content_type = "bullet_list" then "HEADING"
    else current_role
  else if position_index = 0 && content.length < 100 &&
      (text_analysis.has_emphasis || text_analysis.is_title_case) then
    "TITLE"
  else if position_index = 1 && 2 ≤ total_elements && content.length < 150 then
    "SUBTITLE"
  else if content.length < 100 && text_analysis.has_emphasis then
    "HEADING"
  else if text_analysis.content_type = "numbered_list" ||
      text_analysis.content_type = "bullet_list" then
    "BODY"
  else if position_index = total_elements - 1 && content.length < 50 then
    "FOOTER"
  else "BODY"

/-- The `for idx, element in enumerate(sorted_elements)` loop of
`ContentAnalyzer.detect_slide_sections`. -/
def _detect_go (total : Nat) : Nat → List Component → List Component
  | _, [] => []
  | idx, element :: rest =>
    let ta := analyze_text_structure element.content
    { element with role := _refine_role element ta idx total, text_analysis := some ta } ::
      _detect_go total (idx + 1) rest

/-- `ContentAnalyzer.detect_slide_sections`. The components carry no
`position` key, so the Python sort key `e.get('position', {}).get('translateY', 0)`
is 0 for every element and the stable sort is the identity. -/
def detect_slide_sections (elements : List Component) : List Component :=
  if elements.isEmpty then []
  else
    let sorted_elements := elements
    _detect_go sorted_elements.length 0 sorted_elements

/-- `ContentAnalyzer.format_list_items`. -/
def format_list_items (items : List String) (list_type : String) : String :=
  if list_type = "numbered_list" then
    String.intercalate "\n" (items.enum.map (fun p => toString (p.1 + 1) ++ ". " ++ p.2))
  else if list_type = "bullet_list" then
    String.intercalate "\n" (items.map (fun item => "• " ++ item))
  else
    String.intercalate "\n" items

end ContentAnalyzer

/-! ## Supporting lemmas -/

theorem pyStripChars_eq_nil_iff (cs : List Char) :
    pyStripChars cs = [] ↔ ∀ c ∈ cs, pyIsSpace c = true := by
  unfold pyStripChars
  rw [List.reverse_eq_nil_iff, List.dropWhile_eq_nil_iff]
  constructor
  · intro h c hc
    rcases List.mem_append.mp
        ((List.takeWhile_append_dropWhile (p := pyIsSpace) (l := cs)) ▸ hc) with h1 | h1
    · exact List.mem_takeWhile_imp h1
    · exact h c (List.mem_reverse.mpr h1)
  · intro h c hc
    exact h c ((List.dropWhile_sublist _).mem (List.mem_reverse.mp hc))

theorem splitLinesChar_ne_nil (cs : List Char) : splitLinesChar cs ≠ [] := by
  cases cs with
  | nil => simp [splitLinesChar]
  | cons c rest =>
    unfold splitLinesChar
    split
    · simp
    · split <;> simp

theorem splitLinesChar_mem_mem :
    ∀ (cs l : List Char), l ∈ splitLinesChar cs → ∀ c ∈ l, c ∈ cs := by
  intro cs
  induction cs with
  | nil =>
    intro l hl c hc
    simp [splitLinesChar] at hl
    subst hl
    simp at hc
  | cons a rest ih =>
    intro l hl c hc
    by_cases ha : a = '\n'
    · rw [splitLinesChar, if_pos ha] at hl
      rcases List.mem_cons.mp hl with h | h
      · subst h; simp at hc
      · exact List.mem_cons_of_mem _ (ih l h c hc)
    · rw [splitLinesChar, if_neg ha] at hl
      cases hml : splitLinesChar rest with
      | nil => exact absurd hml (splitLinesChar_ne_nil rest)
      | cons l0 ls =>
        rw [hml] at hl
        rcases List.mem_cons.mp hl with h | h
        · subst h
          rcases List.mem_cons.mp hc with h' | h'
          · subst h'; exact List.mem_cons_self _ _
          · exact List.mem_cons_of_mem _
              (ih l0 (hml ▸ List.mem_cons_self _ _) c h')
        · exact List.mem_cons_of_mem _
            (ih l (hml ▸ List.mem_cons_of_mem _ h) c hc)

theorem pyLines_eq_nil_of_strip (text : String) (h : pyStrip text = "") :
    pyLines text = [] := by
  have hall : ∀ c ∈ text.data, pyIsSpace c = true := by
    have hd : pyStripChars text.data = [] := by
      have := congrArg String.data h
      simpa [pyStrip] using this
    exact (pyStripChars_eq_nil_iff _).mp hd
  unfold pyLines
  rw [List.filter_eq_nil_iff]
  intro a ha
  simp only [List.mem_map] at ha
  rcases ha with ⟨l, hl, rfl⟩
  have : pyStripChars l = [] :=
    (pyStripChars_eq_nil_iff _).mpr (fun c hc => hall c (splitLinesChar_mem_mem _ _ hl c hc))
  simp [this]

theorem length_filterMap_eq_countP {α β : Type} (g : α → Option β) :
    ∀ l : List α, (l.filterMap g).length = l.countP (fun a => (g a).isSome) := by
  intro l
  induction l with
  | nil => rfl
  | cons a t ih =>
    rw [List.filterMap_cons, List.countP_cons]
    cases hg : g a <;> simp [hg, ih]

theorem wsContent_nil : wsContent [] = none := rfl

theorem wsContent_cons (c : Char) (rest : List Char) :
    wsContent (c :: rest) =
      if pyIsSpace c then
        match wsContent rest with
        | some r => some r
        | none =>
          match rest with
          | [] => none
          | d :: _ =>
            if d = '\n' then none
            else some (rest.takeWhile (fun x => x ≠ '\n'), rest.dropWhile (fun x => x ≠ '\n'))
      else none := rfl

theorem wsContent_fst_ne_nil :
    ∀ (l : List Char) (g r : List Char), wsContent l = some (g, r) → g ≠ [] := by
  intro l
  induction l with
  | nil => intro g r h; simp [wsContent_nil] at h
  | cons c rest ih =>
    intro g r h
    rw [wsContent_cons] at h
    by_cases hc : pyIsSpace c
    · rw [if_pos hc] at h
      cases hw : wsContent rest with
      | some p =>
        rw [hw] at h
        rcases p with ⟨g0, r0⟩
        simp at h
        exact h.1 ▸ ih g0 r0 hw
      | none =>
        rw [hw] at h
        cases rest with
        | nil => simp at h
        | cons d t =>
          by_cases hd : d = '\n'
          · simp [hd] at h
          · simp [hd] at h
            intro hgnil
            rw [← h.1] at hgnil
            exact List.noConfusion hgnil
    · rw [if_neg hc] at h
      simp at h

theorem matchNumberedAt_fst_ne_nil (l g r : List Char)
    (h : matchNumberedAt l = some (g, r)) : g ≠ [] := by
  unfold matchNumberedAt at h
  dsimp only at h
  cases htw : ((l.dropWhile pyIsSpace).takeWhile isAsciiDigit) with
  | nil => rw [htw] at h; simp at h
  | cons a as =>
    cases hdw : ((l.dropWhile pyIsSpace).dropWhile isAsciiDigit) with
    | nil => rw [htw, hdw] at h; simp at h
    | cons p rest =>
      rw [htw, hdw] at h
      simp only [] at h
      by_cases hp : (p = '.' || p = ')' || p = ':') = true
      · rw [if_pos hp] at h
        exact wsContent_fst_ne_nil rest g r h
      · rw [if_neg hp] at h
        simp at h

theorem matchBulletAt_fst_ne_nil (l g r : List Char)
    (h : matchBulletAt l = some (g, r)) : g ≠ [] := by
  unfold matchBulletAt at h
  cases hdw : (l.dropWhile pyIsSpace) with
  | nil => rw [hdw] at h; simp at h
  | cons b rest =>
    rw [hdw] at h
    simp only [] at h
    by_cases hb : isBulletChar b = true
    · rw [if_pos hb] at h
      exact wsContent_fst_ne_nil rest g r h
    · rw [if_neg hb] at h
      simp at h

namespace TextSplitter

/-- Characterization of a successful `_extract_list` call, restating the
definition's branches for reuse in the claim proofs. -/
theorem _extract_list_some {lines : List String} {start_idx : Nat} {comp : Component}
    {k : Nat} (h : _extract_list lines start_idx = some (comp, k)) :
    ∃ first_line, lines.get? start_idx = some first_line ∧
      _is_list_item first_line = true ∧
      comp =
        (let list_type := if numberedItemTest first_line.data then "numbered_list"
           else "bullet_list"
         let run := (lines.drop start_idx).takeWhile _is_list_item
         let items := run.filterMap (fun line =>
           if list_type = "numbered_list" then
             (matchNumberedAt line.data).map (fun r => String.mk r.1)
           else
             (matchBulletAt line.data).map (fun r => String.mk r.1))
         let content :=
           if list_type = "numbered_list" then
             String.intercalate "\n" (items.enum.map (fun p => toString (p.1 + 1) ++ ". " ++ p.2))
           else
             String.intercalate "\n" (items.map (fun item => "• " ++ item))
         { role := "BODY", content := content, content_type := some list_type,
           is_list := true, items := items, line_index := start_idx }) ∧
      k = ((lines.drop start_idx).takeWhile _is_list_item).length := by
  unfold _extract_list at h
  cases hg : lines.get? start_idx with
  | none => rw [hg] at h; simp at h
  | some first =>
    rw [hg] at h
    simp only [] at h
    by_cases hil : _is_list_item first = true
    · rw [hil] at h
      simp only [Bool.not_true, if_neg (by simp : ¬ (false = true))] at h
      refine ⟨first, rfl, hil, ?_, ?_⟩
      · exact (Prod.mk.injEq _ _ _ _ ▸ (Option.some.injEq _ _ ▸ h)).1.symm
      · exact (Prod.mk.injEq _ _ _ _ ▸ (Option.some.injEq _ _ ▸ h)).2.symm
    · have hil' : _is_list_item first = false := by
        cases hx : _is_list_item first
        · rfl
        · exact absurd hx hil
      rw [hil'] at h
      simp at h

theorem _extract_list_role {lines : List String} {start_idx : Nat} {comp : Component}
    {k : Nat} (h : _extract_list lines start_idx = some (comp, k)) :
    comp.role = "BODY" := by
  obtain ⟨f, _, _, hcomp, _⟩ := _extract_list_some h
  rw [hcomp]

/-- Every component the remaining-line loop emits is a HEADING or a BODY. -/
theorem mem_format_go_role (lines : List String) :
    ∀ fuel i c, c ∈ _format_go lines fuel i → c.role = "HEADING" ∨ c.role = "BODY" := by
  intro fuel
  induction fuel with
  | zero => intro i c hc; simp [_format_go] at hc
  | succ fuel ih =>
    intro i c hc
    rw [_format_go] at hc
    cases hg : lines.get? i with
    | none => rw [hg] at hc; simp at hc
    | some line =>
      rw [hg] at hc
      simp only [] at hc
      by_cases hcol : pyEndsWith line ':' = true
      · rw [if_pos hcol] at hc
        by_cases hemp : ((lines.drop (i + 1)).takeWhile afterColonCond).isEmpty = true
        · rw [if_pos hemp] at hc
          rcases List.mem_cons.mp hc with h | h
          · subst h; left; rfl
          · exact ih _ c h
        · rw [if_neg hemp] at hc
          rcases List.mem_cons.mp hc with h | h
          · subst h; left; rfl
          · rcases List.mem_cons.mp h with h' | h'
            · subst h'; right; rfl
            · exact ih _ c h'
      · rw [if_neg hcol] at hc
        cases he : _extract_list lines i with
        | some p =>
          rw [he] at hc
          rcases p with ⟨comp, consumed⟩
          rcases List.mem_cons.mp hc with h | h
          · subst h; right; exact _extract_list_role he
          · exact ih _ c h
        | none =>
          rw [he] at hc
          by_cases hh : _is_heading line = true
          · rw [if_pos hh] at hc
            rcases List.mem_cons.mp hc with h | h
            · subst h; left; rfl
            · exact ih _ c h
          · rw [if_neg hh] at hc
            rcases List.mem_cons.mp hc with h | h
            · subst h; right; rfl
            · exact ih _ c h

theorem mem_format_role (lines : List String) (c : Component)
    (hc : c ∈ _format_text_with_lists lines) : c.role = "HEADING" ∨ c.role = "BODY" :=
  mem_format_go_role lines lines.length 0 c hc

/-- Where the prefix logic of `split_slide_text` can put a SUBTITLE:
exactly on the first slide, under a ≤6-word first line, with a qualifying
second line. -/
theorem splitCore_subtitle_iff (lines : List String) (idx : Nat) :
    (∃ c ∈ splitCore lines idx, c.role = "SUBTITLE") ↔
      (idx = 0 ∧ ∃ f s rest, lines = f :: s :: rest ∧ _count_words f ≤ 6 ∧
        s.length < 150 ∧ _count_words s ≤ 6) := by
  cases lines with
  | nil => simp [splitCore]
  | cons f restL =>
    by_cases hw : _count_words f ≤ 6
    · cases restL with
      | nil =>
        simp only [splitCore, if_pos hw]
        constructor
        · rintro ⟨c, hc, hrole⟩
          rcases List.mem_cons.mp hc with h | h
          · subst h; simp at hrole
          · simp at h
        · rintro ⟨-, f', s', rest', heq, -⟩
          exact absurd heq (by simp)
      | cons s rest2 =>
        by_cases hcond : (decide (idx = 0) && decide (s.length < 150) &&
            decide (_count_words s ≤ 6)) = true
        · simp only [splitCore, if_pos hw, if_pos hcond]
          simp only [Bool.and_eq_true, decide_eq_true_eq] at hcond
          constructor
          · intro _
            exact ⟨hcond.1.1, f, s, rest2, rfl, hw, hcond.1.2, hcond.2⟩
          · intro _
            exact ⟨{ role := "SUBTITLE", content := s, line_index := 1 },
              List.mem_cons_of_mem _ (List.mem_cons_self _ _), rfl⟩
        · simp only [splitCore, if_pos hw, if_neg hcond]
          constructor
          · rintro ⟨c, hc, hrole⟩
            rcases List.mem_cons.mp hc with h | h
            · subst h; simp at hrole
            · rcases mem_format_role _ _ h with h' | h' <;> rw [hrole] at h' <;> simp at h'
          · rintro ⟨hidx, f', s', rest', heq, -, hlen, hwc⟩
            obtain ⟨rfl, rfl, rfl⟩ : f = f' ∧ s = s' ∧ rest2 = rest' := by
              injection heq with h1 h2
              injection h2 with h2 h3
              exact ⟨h1, h2, h3⟩
            exact absurd (by simp [hidx, hlen, hwc]) hcond
    · simp only [splitCore, if_neg hw]
      constructor
      · rintro ⟨c, hc, hrole⟩
        rcases mem_format_role _ _ hc with h' | h' <;> rw [hrole] at h' <;> simp at h'
      · rintro ⟨-, f', s', rest', heq, hwc, -⟩
        obtain rfl : f = f' := by injection heq
        exact absurd hwc hw

/-- In the splitter's output a TITLE can sit only at position 0 and a
SUBTITLE only at position 1. -/
theorem splitCore_get?_roles (lines : List String) (idx : Nat) (k : Nat) (c : Component)
    (h : (splitCore lines idx).get? k = some c) :
    (c.role = "TITLE" → k = 0) ∧ (c.role = "SUBTITLE" → k = 1) := by
  have fmt : ∀ (ls : List String) (k' : Nat),
      (_format_text_with_lists ls).get? k' = some c →
      (c.role = "TITLE" → False) ∧ (c.role = "SUBTITLE" → False) := by
    intro ls k' h'
    have hm := List.get?_mem h'
    rcases mem_format_role _ _ hm with h'' | h'' <;>
      exact ⟨fun hr => by rw [hr] at h''; simp at h'',
             fun hr => by rw [hr] at h''; simp at h''⟩
  cases lines with
  | nil => simp [splitCore] at h
  | cons f restL =>
    by_cases hw : _count_words f ≤ 6
    · cases restL with
      | nil =>
        simp only [splitCore, if_pos hw] at h
        cases k with
        | zero =>
          simp at h
          subst h
          exact ⟨fun _ => rfl, fun hr => by simp at hr⟩
        | succ k' => simp at h
      | cons s rest2 =>
        by_cases hcond : (decide (idx = 0) && decide (s.length < 150) &&
            decide (_count_words s ≤ 6)) = true
        · simp only [splitCore, if_pos hw, if_pos hcond] at h
          cases k with
          | zero =>
            simp at h
            subst h
            exact ⟨fun _ => rfl, fun hr => by simp at hr⟩
          | succ k' =>
            cases k' with
            | zero =>
              simp at h
              subst h
              exact ⟨fun hr => by simp at hr, fun _ => rfl⟩
            | succ k'' =>
              have h' : (_format_text_with_lists rest2).get? k'' = some c := h
              rcases fmt rest2 k'' h' with ⟨h1, h2⟩
              exact ⟨fun hr => absurd hr (fun hr => h1 hr), fun hr => absurd hr (fun hr => h2 hr)⟩
        · simp only [splitCore, if_pos hw, if_neg hcond] at h
          cases k with
          | zero =>
            simp at h
            subst h
            exact ⟨fun _ => rfl, fun hr => by simp at hr⟩
          | succ k' =>
            have h' : (_format_text_with_lists (s :: rest2)).get? k' = some c := h
            rcases fmt _ k' h' with ⟨h1, h2⟩
            exact ⟨fun hr => absurd (h1 hr) id, fun hr => absurd (h2 hr) id⟩
    · simp only [splitCore, if_neg hw] at h
      rcases fmt _ k h with ⟨h1, h2⟩
      exact ⟨fun hr => absurd (h1 hr) id, fun hr => absurd (h2 hr) id⟩

/-- Once the preprocessed lines are non-empty, `split_slide_text` is
`splitCore` on them. -/
theorem split_slide_text_eq_core (text : String) (idx : Nat) (f : String)
    (rest : List String) (hl : pyLines text = f :: rest) :
    split_slide_text text idx = splitCore (f :: rest) idx := by
  unfold split_slide_text
  rw [if_neg, hl]
  intro h0
  rw [pyLines_eq_nil_of_strip text h0] at hl
  exact List.noConfusion hl

theorem split_get?_roles (text : String) (idx : Nat) (k : Nat) (c : Component)
    (h : (split_slide_text text idx).get? k = some c) :
    (c.role = "TITLE" → k = 0) ∧ (c.role = "SUBTITLE" → k = 1) := by
  unfold split_slide_text at h
  by_cases hs : pyStrip text = ""
  · rw [if_pos hs] at h; simp at h
  · rw [if_neg hs] at h
    exact splitCore_get?_roles _ _ _ _ h

end TextSplitter

namespace ContentAnalyzer

/-- `_refine_role` can answer TITLE only for an element that already was a
TITLE or that sits at position 0. -/
theorem refine_eq_title {e : Component} {ta : TextAnalysis} {p t : Nat}
    (h : _refine_role e ta p t = "TITLE") : e.role = "TITLE" ∨ p = 0 := by
  unfold _refine_role at h
  dsimp only at h
  split at h
  · split at h
    · simp at h
    · left; exact h
  · split at h
    · rename_i hcond
      simp only [Bool.and_eq_true, decide_eq_true_eq] at hcond
      right; exact hcond.1.1
    · split at h
      · simp at h
      · split at h
        · simp at h
        · split at h
          · simp at h
          · split at h <;> simp at h

/-- `_refine_role` can answer SUBTITLE only for an element that already was
a SUBTITLE or that sits at position 1. -/
theorem refine_eq_subtitle {e : Component} {ta : TextAnalysis} {p t : Nat}
    (h : _refine_role e ta p t = "SUBTITLE") : e.role = "SUBTITLE" ∨ p = 1 := by
  unfold _refine_role at h
  dsimp only at h
  split at h
  · split at h
    · simp at h
    · left; exact h
  · split at h
    · simp at h
    · split at h
      · rename_i hcond
        simp only [Bool.and_eq_true, decide_eq_true_eq] at hcond
        right; exact hcond.1.1
      · split at h
        · simp at h
        · split at h
          · simp at h
          · split at h <;> simp at h

/-- The role of the `k`-th output of the enumeration loop is the refinement
of the `k`-th input at position index `idx + k`. -/
theorem detect_go_get? (total : Nat) :
    ∀ (l : List Component) (idx k : Nat) (c : Component),
      (_detect_go total idx l).get? k = some c →
      ∃ e, l.get? k = some e ∧
        c.role = _refine_role e (analyze_text_structure e.content) (idx + k) total := by
  intro l
  induction l with
  | nil => intro idx k c h; simp [_detect_go] at h
  | cons e t ih =>
    intro idx k c h
    cases k with
    | zero =>
      rw [_detect_go] at h
      simp at h
      exact ⟨e, rfl, by rw [← h]; simp⟩
    | succ k' =>
      rw [_detect_go] at h
      have h' : (_detect_go total (idx + 1) t).get? k' = some c := h
      obtain ⟨e', he', hr⟩ := ih (idx + 1) k' c h'
      refine ⟨e', he', ?_⟩
      rw [hr]
      congr 1
      omega

end ContentAnalyzer

/-- A list in which the predicate can hold only at one fixed position has at
most one element satisfying it. -/
theorem countP_le_one_of_unique_pos {α : Type} (p : α → Bool) :
    ∀ (l : List α) (n : Nat), (∀ k c, l.get? k = some c → p c = true → k = n) →
      l.countP p ≤ 1 := by
  intro l
  induction l with
  | nil => intro n _; simp [List.countP_nil]
  | cons a t ih =>
    intro n h
    rw [List.countP_cons]
    by_cases hpa : p a = true
    · have hn : 0 = n := h 0 a rfl hpa
      have ht : t.countP p = 0 := by
        rw [List.countP_eq_zero]
        intro b hb hpb
        obtain ⟨k, hk⟩ := List.get?_of_mem hb
        have := h (k + 1) b hk hpb
        omega
      simp [ht, hpa]
    · have hpa' : p a = false := by
        cases hx : p a
        · rfl
        · exact absurd hx hpa
      rw [hpa']
      simp only [if_neg (by simp : ¬ (false = true)), Nat.add_zero]
      cases n with
      | zero =>
        have : t.countP p = 0 := by
          rw [List.countP_eq_zero]
          intro b hb hpb
          obtain ⟨k, hk⟩ := List.get?_of_mem hb
          have := h (k + 1) b hk hpb
          omega
        omega
      | succ m =>
        exact ih m (fun k c hk hpc => by have := h (k + 1) c hk hpc; omega)

/-! ## Claims -/

/-- C1 (counterexample): on input `"1. Plan\n2. Build\n3. Ship"` with
slide_index 1 the splitter does not return exactly one component: it returns
two, because the two-word first line "1. Plan" passes the ≤6-word title gate
and is emitted as a TITLE before the list extraction sees the rest. -/
theorem C1_counterexample :
    (TextSplitter.split_slide_text "1. Plan\n2. Build\n3. Ship" 1).length = 2 := by decide

/-- C1 (amended): the splitter returns TITLE("1. Plan") followed by one BODY
numbered_list component over the remaining two lines, whose items are
["Build", "Ship"] and whose content is re-numbered from 1. -/
theorem C1_amended_eval :
    TextSplitter.split_slide_text "1. Plan\n2. Build\n3. Ship" 1 =
      [{ role := "TITLE", content := "1. Plan", line_index := 0 },
       { role := "BODY", content := "1. Build\n2. Ship", line_index := 0,
         content_type := some "numbered_list", is_list := true,
         items := ["Build", "Ship"] }] := by decide

/-- C2 (counterexample): on input `"Goals:\n1. First\n2. Second"` (slide 1)
no HEADING component is emitted at all — the roles are TITLE and BODY: the
one-word first line "Goals:" is captured by the title gate, and the numbered
lines go through the List Extractor, not the colon-branch. -/
theorem C2_counterexample :
    (TextSplitter.split_slide_text "Goals:\n1. First\n2. Second" 1).map Component.role =
      ["TITLE", "BODY"] := by decide

/-- C4: the two list recognizers disagree on one-item lists —
`analyze_text_structure "1. Only item"` classifies as plain (it needs ≥2
regex matches), while `_extract_list` on the same single line returns a
numbered-list component with exactly one item. -/
theorem C4_threshold_asymmetry :
    (ContentAnalyzer.analyze_text_structure "1. Only item").content_type = "plain" ∧
    TextSplitter._extract_list ["1. Only item"] 0 =
      some ({ role := "BODY", content := "1. Only item", line_index := 0,
              content_type := some "numbered_list", is_list := true,
              items := ["Only item"] }, 1) := by decide

/-- C3 (counterexample): a consumed run mixing numbered and bullet markers
breaks the items-count-equals-consumed invariant: on `["1. A", "• B"]` the
extractor consumes 2 lines but extracts only 1 item (the bullet line matches
`_is_list_item` and is consumed, but the numbered extraction regex fails on
it, so no item is appended). -/
theorem C3_counterexample :
    TextSplitter._extract_list ["1. A", "• B"] 0 =
      some ({ role := "BODY", content := "1. A", line_index := 0,
              content_type := some "numbered_list", is_list := true,
              items := ["A"] }, 2) := by decide

/-- C5 (counterexample): `detect_slide_sections` does not keep the at-most-one
SUBTITLE invariant on arbitrary element lists: a pre-assigned SUBTITLE at
position 0 is kept, and the position-1 rule then makes the next short element
a second SUBTITLE. -/
theorem C5_counterexample :
    (ContentAnalyzer.detect_slide_sections
      [{ role := "SUBTITLE", content := "Hi" },
       { role := "BODY", content := "Hello" }]).countP
        (fun c => c.role == "SUBTITLE") = 2 := by decide

/-- C2 (amended): on `"Goals:\n1. First\n2. Second"` for any non-first slide
the splitter emits TITLE("Goals:") — not a HEADING — followed by a BODY
numbered_list whose rendered content keeps numeric markers
("1. First\n2. Second", items ["First", "Second"]); the colon-branch bullet
rendering never fires here because the lines after "Goals:" are themselves
list items, which the colon-branch collection refuses. -/
theorem C2_amended (slide_index : Nat) (hpos : 0 < slide_index) :
    TextSplitter.split_slide_text "Goals:\n1. First\n2. Second" slide_index =
      [{ role := "TITLE", content := "Goals:", line_index := 0 },
       { role := "BODY", content := "1. First\n2. Second", line_index := 0,
         content_type := some "numbered_list", is_list := true,
         items := ["First", "Second"] }] := by
  have hl : pyLines "Goals:\n1. First\n2. Second" = ["Goals:", "1. First", "2. Second"] := by
    decide
  rw [TextSplitter.split_slide_text_eq_core _ slide_index _ _ hl]
  simp only [TextSplitter.splitCore]
  rw [if_pos (by decide : TextSplitter._count_words "Goals:" ≤ 6)]
  have hcond : ¬ ((decide (slide_index = 0) && decide (("1. First" : String).length < 150) &&
      decide (TextSplitter._count_words "1. First" ≤ 6)) = true) := by
    simp only [Bool.and_eq_true, decide_eq_true_eq]
    rintro ⟨⟨h0, -⟩, -⟩
    omega
  rw [if_neg hcond]
  have hfmt : TextSplitter._format_text_with_lists ["1. First", "2. Second"] =
      [{ role := "BODY", content := "1. First\n2. Second", line_index := 0,
         content_type := some "numbered_list", is_list := true,
         items := ["First", "Second"] }] := by decide
  rw [hfmt]

/-- C2 witness: the amended statement at slide_index 1. -/
theorem C2_amended_witness :
    TextSplitter.split_slide_text "Goals:\n1. First\n2. Second" 1 =
      [{ role := "TITLE", content := "Goals:", line_index := 0 },
       { role := "BODY", content := "1. First\n2. Second", line_index := 0,
         content_type := some "numbered_list", is_list := true,
         items := ["First", "Second"] }] :=
  C2_amended 1 (by decide)

/-- C3 (amended): whenever `_extract_list` recognizes a list, no extracted
item is the empty string, the consumed count is the length of the maximal
run of list-item lines from the start offset, and the items count equals the
number of consumed lines whose marker matches the list type inferred from
the first line — so on a homogeneous run items count equals lines consumed,
while a mixed run yields fewer items than consumed lines. -/
theorem C3_amended (lines : List String) (start_idx : Nat) (comp : Component) (k : Nat)
    (h : TextSplitter._extract_list lines start_idx = some (comp, k)) :
    (∀ it ∈ comp.items, it ≠ "") ∧
    k = ((lines.drop start_idx).takeWhile TextSplitter._is_list_item).length ∧
    ∃ lt, comp.content_type = some lt ∧
      comp.items.length =
        ((lines.drop start_idx).takeWhile TextSplitter._is_list_item).countP
          (fun line =>
            if lt = "numbered_list" then (matchNumberedAt line.data).isSome
            else (matchBulletAt line.data).isSome) := by
  obtain ⟨f, hget, hil, hcomp, hk⟩ := TextSplitter._extract_list_some h
  subst hcomp
  refine ⟨?_, hk, ?_⟩
  · intro it hit
    dsimp only at hit
    rw [List.mem_filterMap] at hit
    obtain ⟨line, hline, hsome⟩ := hit
    by_cases hnum : numberedItemTest f.data = true
    · rw [if_pos hnum] at hsome
      rw [if_pos (rfl : ("numbered_list" : String) = "numbered_list")] at hsome
      rw [Option.map_eq_some'] at hsome
      obtain ⟨⟨g, r⟩, hm, hmk⟩ := hsome
      subst hmk
      intro h0
      have hg : g = [] := by simpa [String.ext_iff] using h0
      exact matchNumberedAt_fst_ne_nil _ _ _ hm hg
    · rw [if_neg hnum] at hsome
      rw [if_neg (by decide : ¬ (("bullet_list" : String) = "numbered_list"))] at hsome
      rw [Option.map_eq_some'] at hsome
      obtain ⟨⟨g, r⟩, hm, hmk⟩ := hsome
      subst hmk
      intro h0
      have hg : g = [] := by simpa [String.ext_iff] using h0
      exact matchBulletAt_fst_ne_nil _ _ _ hm hg
  · refine ⟨if numberedItemTest f.data then "numbered_list" else "bullet_list", by dsimp only, ?_⟩
    dsimp only
    by_cases hnum : numberedItemTest f.data = true
    · simp [hnum, length_filterMap_eq_countP, Option.isSome_map]
    · simp [hnum, length_filterMap_eq_countP, Option.isSome_map]

/-- C3 witness: a homogeneous numbered run `["1. A", "2) B"]` — two items,
two lines consumed, no empty item. -/
theorem C3_amended_witness :
    (∀ it, it ∈ ({ role := "BODY", content := "1. A\n2. B", line_index := 0,
                   content_type := some "numbered_list", is_list := true,
                   items := ["A", "B"] } : Component).items → it ≠ "") ∧
    2 = (((["1. A", "2) B"] : List String).drop 0).takeWhile TextSplitter._is_list_item).length ∧
    ∃ lt, ({ role := "BODY", content := "1. A\n2. B", line_index := 0,
             content_type := some "numbered_list", is_list := true,
             items := ["A", "B"] } : Component).content_type = some lt ∧
      ({ role := "BODY", content := "1. A\n2. B", line_index := 0,
         content_type := some "numbered_list", is_list := true,
         items := ["A", "B"] } : Component).items.length =
        (((["1. A", "2) B"] : List String).drop 0).takeWhile TextSplitter._is_list_item).countP
          (fun line =>
            if lt = "numbered_list" then (matchNumberedAt line.data).isSome
            else (matchBulletAt line.data).isSome) :=
  C3_amended ["1. A", "2) B"] 0 _ 2 (by decide)

/-- C5 (amended): on the actual pipeline — `split_slide_text` followed by
`detect_slide_sections` — every slide ends with at most one TITLE and at
most one SUBTITLE component: the splitter places TITLE only at position 0
and SUBTITLE only at position 1, and refinement creates a TITLE only at
position 0 and a SUBTITLE only at position 1. (On arbitrary element lists
the invariant fails, see the counterexample.) -/
theorem C5_amended (text : String) (slide_index : Nat) :
    ((ContentAnalyzer.detect_slide_sections
        (TextSplitter.split_slide_text text slide_index)).countP
      (fun c => c.role == "TITLE")) ≤ 1 ∧
    ((ContentAnalyzer.detect_slide_sections
        (TextSplitter.split_slide_text text slide_index)).countP
      (fun c => c.role == "SUBTITLE")) ≤ 1 := by
  by_cases he : (TextSplitter.split_slide_text text slide_index).isEmpty = true
  · unfold ContentAnalyzer.detect_slide_sections
    rw [if_pos he]
    simp
  · unfold ContentAnalyzer.detect_slide_sections
    rw [if_neg he]
    dsimp only
    constructor
    · apply countP_le_one_of_unique_pos _ _ 0
      intro k c hk hp
      obtain ⟨e, he', hr⟩ := ContentAnalyzer.detect_go_get? _ _ 0 k c hk
      have hrt : c.role = "TITLE" := by simpa using hp
      rw [hrt] at hr
      rcases ContentAnalyzer.refine_eq_title hr.symm with h1 | h1
      · exact (TextSplitter.split_get?_roles text slide_index k e he').1 h1
      · omega
    · apply countP_le_one_of_unique_pos _ _ 1
      intro k c hk hp
      obtain ⟨e, he', hr⟩ := ContentAnalyzer.detect_go_get? _ _ 0 k c hk
      have hrt : c.role = "SUBTITLE" := by simpa using hp
      rw [hrt] at hr
      rcases ContentAnalyzer.refine_eq_subtitle hr.symm with h1 | h1
      · exact (TextSplitter.split_get?_roles text slide_index k e he').2 h1
      · omega

/-- C6: title gating of `split_slide_text`. If the first preprocessed line
has ≥7 whitespace-delimited words, no TITLE component is emitted and the
whole line sequence (first line included) is handed to the remaining-line
formatting loop; if it has ≤6 words, the output starts with a TITLE
component holding exactly that line. -/
theorem C6_title_gating (text : String) (slide_index : Nat) (f : String)
    (rest : List String) (hl : pyLines text = f :: rest) :
    (7 ≤ TextSplitter._count_words f →
      (∀ c ∈ TextSplitter.split_slide_text text slide_index, c.role ≠ "TITLE") ∧
      TextSplitter.split_slide_text text slide_index =
        TextSplitter._format_text_with_lists (f :: rest)) ∧
    (TextSplitter._count_words f ≤ 6 →
      ∃ cs, TextSplitter.split_slide_text text slide_index =
        ({ role := "TITLE", content := f, line_index := 0 } : Component) :: cs) := by
  have hsplit := TextSplitter.split_slide_text_eq_core text slide_index f rest hl
  constructor
  · intro h7
    have hw : ¬ TextSplitter._count_words f ≤ 6 := by omega
    have hcore : TextSplitter.splitCore (f :: rest) slide_index =
        TextSplitter._format_text_with_lists (f :: rest) := by
      simp only [TextSplitter.splitCore]
      rw [if_neg hw]
    refine ⟨?_, by rw [hsplit, hcore]⟩
    intro c hc
    rw [hsplit, hcore] at hc
    rcases TextSplitter.mem_format_role _ _ hc with h | h <;> rw [h] <;> simp
  · intro h6
    rw [hsplit]
    cases rest with
    | nil =>
      refine ⟨[], ?_⟩
      simp only [TextSplitter.splitCore]
      rw [if_pos h6]
    | cons s rest2 =>
      by_cases hcond : (decide (slide_index = 0) && decide (s.length < 150) &&
          decide (TextSplitter._count_words s ≤ 6)) = true
      · refine ⟨({ role := "SUBTITLE", content := s, line_index := 1 } : Component) ::
          TextSplitter._format_text_with_lists rest2, ?_⟩
        simp only [TextSplitter.splitCore]
        rw [if_pos h6, if_pos hcond]
      · refine ⟨TextSplitter._format_text_with_lists (s :: rest2), ?_⟩
        simp only [TextSplitter.splitCore]
        rw [if_pos h6, if_neg hcond]

/-- C6 witness: a 7-word first line is handed whole to the formatting loop;
a 2-word first line becomes a TITLE. -/
theorem C6_title_gating_witness :
    (TextSplitter.split_slide_text "one two three four five six seven\nrest line" 1 =
      TextSplitter._format_text_with_lists
        ["one two three four five six seven", "rest line"]) ∧
    (∃ cs, TextSplitter.split_slide_text "Short title\nbody text here we go now yes" 1 =
      ({ role := "TITLE", content := "Short title", line_index := 0 } : Component) :: cs) :=
  ⟨((C6_title_gating "one two three four five six seven\nrest line" 1
      "one two three four five six seven" ["rest line"] (by decide)).1 (by decide)).2,
   (C6_title_gating "Short title\nbody text here we go now yes" 1
      "Short title" ["body text here we go now yes"] (by decide)).2 (by decide)⟩

/-- C7: subtitle gating of `split_slide_text`. No SUBTITLE is ever emitted
for slide_index > 0, and a SUBTITLE appears exactly when the slide is the
first one, the first line passed the title gate (≤6 words), a second line
exists, its length is < 150 and its word count is ≤ 6. -/
theorem C7_subtitle_gating (text : String) (slide_index : Nat) :
    (0 < slide_index →
      ∀ c ∈ TextSplitter.split_slide_text text slide_index, c.role ≠ "SUBTITLE") ∧
    ((∃ c ∈ TextSplitter.split_slide_text text slide_index, c.role = "SUBTITLE") ↔
      (slide_index = 0 ∧ ∃ f s rest, pyLines text = f :: s :: rest ∧
        TextSplitter._count_words f ≤ 6 ∧ s.length < 150 ∧
        TextSplitter._count_words s ≤ 6)) := by
  have hiff : (∃ c ∈ TextSplitter.split_slide_text text slide_index, c.role = "SUBTITLE") ↔
      (slide_index = 0 ∧ ∃ f s rest, pyLines text = f :: s :: rest ∧
        TextSplitter._count_words f ≤ 6 ∧ s.length < 150 ∧
        TextSplitter._count_words s ≤ 6) := by
    cases hl : pyLines text with
    | nil =>
      have hsplit : TextSplitter.split_slide_text text slide_index = [] := by
        unfold TextSplitter.split_slide_text
        by_cases hs : pyStrip text = ""
        · rw [if_pos hs]
        · rw [if_neg hs, hl]
          rfl
      rw [hsplit]
      simp
    | cons f restL =>
      rw [TextSplitter.split_slide_text_eq_core text slide_index f restL hl]
      exact TextSplitter.splitCore_subtitle_iff (f :: restL) slide_index
  refine ⟨?_, hiff⟩
  intro hpos c hc hrole
  have h0 := (hiff.mp ⟨c, hc, hrole⟩).1
  omega

/-- C7 witness: a first slide with a qualifying second line does produce a
SUBTITLE (so the iff's right-hand side is satisfiable). -/
theorem C7_subtitle_gating_witness :
    ∃ c ∈ TextSplitter.split_slide_text "Big Launch\nQ4 Plan\nDetails here" 0,
      c.role = "SUBTITLE" :=
  (C7_subtitle_gating "Big Launch\nQ4 Plan\nDetails here" 0).2.mpr
    ⟨rfl, "Big Launch", "Q4 Plan", ["Details here"], by decide, by decide, by decide,
      by decide⟩

/-- C8: the empty string and every whitespace-only string produce the empty
component sequence (and the function is total — no error is possible). -/
theorem C8_degenerate_input (text : String) (slide_index : Nat)
    (h : ∀ c ∈ text.data, pyIsSpace c = true) :
    TextSplitter.split_slide_text text slide_index = [] := by
  have hs : pyStrip text = "" := by
    unfold pyStrip
    rw [(pyStripChars_eq_nil_iff _).mpr h]
  unfold TextSplitter.split_slide_text
  rw [if_pos hs]

/-- C8 witness: a whitespace-only input. -/
theorem C8_degenerate_input_witness :
    TextSplitter.split_slide_text "  \n\t  " 5 = [] :=
  C8_degenerate_input "  \n\t  " 5 (by decide)

/-- C9: the content of every list component built by `_extract_list` equals
`ContentAnalyzer.format_list_items` applied to its items and its
content_type — in particular numbered items are re-numbered sequentially
from 1 and the numerals of the source lines are discarded. -/
theorem C9_content_refines_formatter (lines : List String) (start_idx : Nat)
    (comp : Component) (k : Nat)
    (h : TextSplitter._extract_list lines start_idx = some (comp, k)) :
    ∃ lt, comp.content_type = some lt ∧
      comp.content = ContentAnalyzer.format_list_items comp.items lt := by
  obtain ⟨f, -, -, hcomp, -⟩ := TextSplitter._extract_list_some h
  subst hcomp
  by_cases hnum : numberedItemTest f.data = true
  · exact ⟨"numbered_list", by simp [hnum],
      by simp [hnum, ContentAnalyzer.format_list_items]⟩
  · exact ⟨"bullet_list", by simp [hnum],
      by simp [hnum, ContentAnalyzer.format_list_items]⟩

/-- C9 witness: the numbered list extracted from `["3. A", "7) B"]` is
re-rendered through the canonical formatter (renumbered 1, 2). -/
theorem C9_content_refines_formatter_witness :
    ∃ lt, ({ role := "BODY", content := "1. A\n2. B", line_index := 0,
             content_type := some "numbered_list", is_list := true,
             items := ["A", "B"] } : Component).content_type = some lt ∧
      ({ role := "BODY", content := "1. A\n2. B", line_index := 0,
         content_type := some "numbered_list", is_list := true,
         items := ["A", "B"] } : Component).content =
        ContentAnalyzer.format_list_items
          ({ role := "BODY", content := "1. A\n2. B", line_index := 0,
             content_type := some "numbered_list", is_list := true,
             items := ["A", "B"] } : Component).items lt :=
  C9_content_refines_formatter ["3. A", "7) B"] 0 _ 2 (by decide)

/-- C10: `analyze_text_structure` only ever classifies text as plain,
numbered_list or bullet_list; the `mixed` value of the data model's
enumeration is never produced. -/
theorem C10_content_type_range (text : String) :
    (ContentAnalyzer.analyze_text_structure text).content_type = "plain" ∨
    (ContentAnalyzer.analyze_text_structure text).content_type = "numbered_list" ∨
    (ContentAnalyzer.analyze_text_structure text).content_type = "bullet_list" := by
  unfold ContentAnalyzer.analyze_text_structure
  by_cases h : pyStrip text = ""
  · rw [if_pos h]
    left
    rfl
  · rw [if_neg h]
    dsimp only
    by_cases h2 : 2 ≤ (ContentAnalyzer.numberedFinditer text).length
    · rw [if_pos h2]
      right; left; rfl
    · rw [if_neg h2]
      by_cases h3 : 2 ≤ (ContentAnalyzer.bulletFinditer text).length
      · rw [if_pos h3]
        right; right; rfl
      · rw [if_neg h3]
        left
        rfl
